import Mathlib

/-!
Shallow embedding of the PN532 frame codec, NDEF record encoder and NTAG
tag-property logic of the edge-device-communication repository, with proofs
of the specification's testable properties.

Byte strings are embedded as `List Nat`, where each element is a byte value
below 256 (Python `bytearray` enforces this bound at assignment).  Bitwise
operations of the source (`& 0xFF`, `~x`, `|`) become `% 256`, `255 - x % 256`
and `|||` on `Nat`.  Python functions that raise become `Except`-valued
functions with one error constructor per distinct `raise` site.
-/

namespace EdgeDevice

/-! ## Frame codec — src/pn532/pn532.py, `PN532._build_frame` / `PN532._parse_frame` -/

/-- Python `~x & 0xFF` (bitwise complement truncated to one byte). -/
def notByte (x : Nat) : Nat := 255 - x % 256

/-- Python `(~x + 1) & 0xFF` (two's-complement negation truncated to one byte). -/
def negByte (x : Nat) : Nat := (256 - x % 256) % 256

/-- Embedding of `PN532._build_frame` (src/pn532/pn532.py lines 293-309).
The source fills a `bytearray` of length `len(packet_data) + 7`:
preamble `0x00`, start code `0x00 0xFF`, the length byte `len & 0xFF`, the
length checksum `(~len + 1) & 0xFF`, the packet data, the data checksum
`~(0xFF + sum(packet_data)) & 0xFF` (the running checksum starts from
`sum(frame[0:3]) = 0xFF`), and the postamble `0x00`.  The source contains no
`raise` statement: the function is total. -/
def buildFrame (packetData : List Nat) : List Nat :=
  let packetLength := packetData.length
  let checksum := 0x00 + 0x00 + 0xFF + packetData.sum
  [0x00, 0x00, 0xFF, packetLength % 256, negByte packetLength]
    ++ packetData ++ [notByte checksum, 0x00]

/-- One constructor per distinct failure site of `PN532._parse_frame`:
`indexError` for a Python `IndexError` on an out-of-range subscript,
`preamble` for `'Response frame preamble does not contain 0x00FF!'`,
`noData` for `'Response contains no data!'`,
`lengthChecksum` for `'Response length checksum did not match length!'`,
`dataChecksum` for `'Response checksum did not match expected value.'`. -/
inductive ParseErr where
  | indexError
  | preamble
  | noData
  | lengthChecksum
  | dataChecksum
  deriving DecidableEq

/-- Embedding of the tail of `PN532._parse_frame` after the `0xFF` start byte
has been consumed: the head of the remaining list is `frame_len`, the next
byte is the length checksum; the data checksum sums the slice
`packet_data[offset+2 : offset+2+frame_len+1]` and the payload slice
`packet_data[offset+2 : offset+2+frame_len]` is returned.  A list with a
single element faults on the `packet_data[offset+1]` subscript. -/
def parseAfterStart : List Nat → Except ParseErr (List Nat)
  | [] => .error .noData
  | [_] => .error .indexError
  | frameLen :: lcs :: rest =>
    if (frameLen + lcs) % 256 ≠ 0 then .error .lengthChecksum
    else if (rest.take (frameLen + 1)).sum % 256 ≠ 0 then .error .dataChecksum
    else .ok (rest.take frameLen)

/-- Embedding of `PN532._parse_frame` (src/pn532/pn532.py lines 311-337).
The `while packet_data[offset] == 0x00` loop becomes structural recursion:
an empty input faults on the very first subscript; a list of only zeros runs
the offset past the end (`preamble` error); the first nonzero byte must be
`0xFF`; `parseAfterStart` handles the rest. -/
def parseFrame : List Nat → Except ParseErr (List Nat)
  | [] => .error .indexError
  | b :: rest =>
    if b = 0x00 then
      if rest = [] then .error .preamble else parseFrame rest
    else if b = 0xFF then parseAfterStart rest
    else .error .preamble

/-- Skipping a leading zero byte: the parser's while-loop steps over it as
long as the offset stays in range. -/
lemma parseFrame_cons_zero (l : List Nat) (h : l ≠ []) :
    parseFrame (0x00 :: l) = parseFrame l := by
  simp [parseFrame, h]

/-- On the first nonzero byte `0xFF` the parser hands over to
`parseAfterStart`. -/
lemma parseFrame_start (l : List Nat) : parseFrame (0xFF :: l) = parseAfterStart l := by
  simp [parseFrame]

/-- Replacing the element at a valid index changes a list's sum by removing
the old element and adding the new one. -/
lemma sum_set_add (p : List Nat) (i : Nat) (hi : i < p.length) (b : Nat) :
    (p.set i b).sum + p.get ⟨i, hi⟩ = p.sum + b := by
  induction p generalizing i with
  | nil => simp at hi
  | cons a t ih =>
    cases i with
    | zero => simp [List.set]; omega
    | succ n =>
      have hn : n < t.length := by simpa using Nat.lt_of_succ_lt_succ hi
      have h := ih n hn
      simp only [List.set, List.sum_cons, List.get_cons_succ]
      omega

/-- A built frame in head-normal form: preamble, two start-code bytes, the
length byte, the length checksum, then payload, data checksum, postamble. -/
lemma buildFrame_eq (p : List Nat) :
    buildFrame p = 0x00 :: 0x00 :: 0xFF :: p.length % 256 :: negByte p.length ::
      (p ++ [notByte (0x00 + 0x00 + 0xFF + p.sum), 0x00]) := by
  simp [buildFrame]

/-- C1.  Frame round-trip: for every payload of length 1 through 255 (each
element a byte value), parsing the frame built from it succeeds and returns
the payload unchanged: `_parse_frame(_build_frame(p)) == p`. -/
theorem frame_roundtrip (p : List Nat) (h1 : 1 ≤ p.length) (h2 : p.length ≤ 255)
    (hbytes : ∀ x ∈ p, x < 256) :
    parseFrame (buildFrame p) = .ok p := by
  have hL : p.length % 256 = p.length := Nat.mod_eq_of_lt (by omega)
  rw [buildFrame_eq, parseFrame_cons_zero _ (by simp), parseFrame_cons_zero _ (by simp),
    parseFrame_start, hL]
  have c1 : ¬ (p.length + negByte p.length) % 256 ≠ 0 := by
    unfold negByte; omega
  have e : (p ++ [notByte (0x00 + 0x00 + 0xFF + p.sum), 0x00]).take (p.length + 1)
      = p ++ [notByte (0x00 + 0x00 + 0xFF + p.sum)] := by
    rw [List.take_append 1]
    rfl
  have c2 : ¬ ((p ++ [notByte (0x00 + 0x00 + 0xFF + p.sum), 0x00]).take
      (p.length + 1)).sum % 256 ≠ 0 := by
    rw [e]
    simp only [List.sum_append, List.sum_cons, List.sum_nil, notByte]
    omega
  simp only [parseAfterStart, if_neg c1, if_neg c2, List.take_left]

/-- C2.  Checksum rejection: replacing any single byte of the payload region
of a built frame (frame indices 5 through 4 + len) with a different byte
value makes `_parse_frame` fail with the data-checksum error and return no
payload. -/
theorem checksum_rejection (p : List Nat) (h1 : 1 ≤ p.length) (h2 : p.length ≤ 255)
    (hbytes : ∀ x ∈ p, x < 256) (i : Nat) (hi : i < p.length) (b : Nat)
    (hb : b < 256) (hne : b ≠ p.get ⟨i, hi⟩) :
    parseFrame ((buildFrame p).set (5 + i) b) = .error .dataChecksum := by
  have hL : p.length % 256 = p.length := Nat.mod_eq_of_lt (by omega)
  have hset : (buildFrame p).set (5 + i) b
      = 0x00 :: 0x00 :: 0xFF :: p.length % 256 :: negByte p.length ::
        (p.set i b ++ [notByte (0x00 + 0x00 + 0xFF + p.sum), 0x00]) := by
    rw [buildFrame_eq, show 5 + i = i + 5 by omega]
    show 0x00 :: 0x00 :: 0xFF :: p.length % 256 :: negByte p.length ::
        ((p ++ [notByte (0x00 + 0x00 + 0xFF + p.sum), 0x00]).set i b) = _
    rw [List.set_append_left _ _ hi]
  rw [hset, parseFrame_cons_zero _ (by simp), parseFrame_cons_zero _ (by simp),
    parseFrame_start, hL]
  have hql : (p.set i b).length = p.length := by simp
  have c1 : ¬ (p.length + negByte p.length) % 256 ≠ 0 := by
    unfold negByte; omega
  have hsum : (p.set i b).sum + p.get ⟨i, hi⟩ = p.sum + b := sum_set_add p i hi b
  have ha : p.get ⟨i, hi⟩ < 256 := hbytes _ (List.get_mem p i hi)
  have e : (p.set i b ++ [notByte (0x00 + 0x00 + 0xFF + p.sum), 0x00]).take (p.length + 1)
      = p.set i b ++ [notByte (0x00 + 0x00 + 0xFF + p.sum)] := by
    rw [← hql, List.take_append 1]
    rfl
  have c2 : ((p.set i b ++ [notByte (0x00 + 0x00 + 0xFF + p.sum), 0x00]).take
      (p.length + 1)).sum % 256 ≠ 0 := by
    rw [e]
    simp only [List.sum_append, List.sum_cons, List.sum_nil, notByte]
    omega
  simp only [parseAfterStart, if_neg c1, if_pos c2]

/-- Witness for C1 at the concrete payload `[1, 2, 3]`. -/
theorem frame_roundtrip_witness :
    parseFrame (buildFrame [1, 2, 3]) = .ok [1, 2, 3] :=
  frame_roundtrip [1, 2, 3] (by decide) (by decide) (by decide)

/-- Witness for C2: mutating payload byte 0 of the frame built from
`[1, 2, 3]` from 1 to 9 is rejected with the data-checksum error. -/
theorem checksum_rejection_witness :
    parseFrame ((buildFrame [1, 2, 3]).set 5 9) = .error .dataChecksum :=
  checksum_rejection [1, 2, 3] (by decide) (by decide) (by decide) 0 (by decide) 9
    (by decide) (by decide)

/-! ## Length validation — src/pn532/pn532.py, `PN532._validate_data_length` -/

/-- Embedding of `PN532._validate_data_length` (src/pn532/pn532.py lines
282-291): `true` when the Python function returns normally, `false` when it
raises `ValueError('Data must be an array of 1 to ... bytes.')`.  The guard
in the source is `not data or not 1 < len(data) <= length` (a chained
comparison: `1 < len(data) and len(data) <= length`). -/
def validateDataLength (data : List Nat) (length : Nat) : Bool :=
  !(data.isEmpty || !(decide (1 < data.length) && decide (data.length ≤ length)))

/-- C8.  Evaluation of the page-write length check at data that is not 4
bytes long: `_validate_data_length(data, 4)` accepts 2-byte and 3-byte data
(its guard is `1 < len(data) <= 4`), so `ntag2xx_write_block` proceeds to
I/O with them, and it rejects 1-byte data even though its own error message
promises `1 to 4 bytes`. -/
theorem page_write_length_check_accepts_short :
    validateDataLength [0xAA, 0xBB] 4 = true ∧
    validateDataLength [0xAA, 0xBB, 0xCC] 4 = true ∧
    validateDataLength [0xAA] 4 = false ∧
    validateDataLength [0xAA, 0xBB, 0xCC, 0xDD] 4 = true ∧
    validateDataLength [0xAA, 0xBB, 0xCC, 0xDD, 0xEE] 4 = false := by
  decide

set_option maxRecDepth 8192 in
/-- C9.  Evaluation of `_build_frame` outside the 1-to-255 length range: the
source contains no length check, so the empty payload yields a 7-byte frame
instead of an error, and a 256-byte payload yields a frame whose length
byte has silently wrapped to `0x00` (`256 & 0xFF`). -/
theorem build_frame_no_length_validation :
    buildFrame [] = [0x00, 0x00, 0xFF, 0x00, 0x00, 0x00, 0x00] ∧
    (buildFrame (List.replicate 256 1)).get? 3 = some 0x00 ∧
    (buildFrame (List.replicate 256 1)).length = 263 := by
  refine ⟨rfl, ?_, ?_⟩ <;> decide

/-! ## Tag sub-type derivation — src/nfc/tags/ntag/base.py, `NTAG._determine_tag_properties` -/

/-- Embedding of `NTAG._determine_tag_properties` (src/nfc/tags/ntag/base.py
lines 37-47).  The source looks the Capability Container's second byte up in
`tag_properties_mapping` with default
`('Unknown', (None, None), (None, None), None)`; the result tuple is
(tag type, user-memory range, configuration-pages range, page count). -/
def determineTagProperties (byte : Nat) :
    String × (Option Nat × Option Nat) × (Option Nat × Option Nat) × Option Nat :=
  if byte = 0x12 then ("NTAG213", (some 4, some 39), (some 41, some 44), some 45)
  else if byte = 0x3E then ("NTAG215", (some 4, some 129), (some 131, some 134), some 135)
  else if byte = 0x6D then ("NTAG216", (some 4, some 225), (some 227, some 230), some 231)
  else ("Unknown", (none, none), (none, none), none)

/-- C5.  Sub-type derivation is a pure function of the Capability
Container's second byte: `0x12` gives NTAG213 with user range (4, 39),
configuration range (41, 44) and 45 pages; `0x3E` gives NTAG215 with 135
pages; `0x6D` gives NTAG216 with 231 pages; every other byte gives Unknown
with null ranges and no page count. -/
theorem subtype_derivation :
    determineTagProperties 0x12
      = ("NTAG213", (some 4, some 39), (some 41, some 44), some 45) ∧
    (determineTagProperties 0x3E).1 = "NTAG215" ∧
    (determineTagProperties 0x3E).2.2.2 = some 135 ∧
    (determineTagProperties 0x6D).1 = "NTAG216" ∧
    (determineTagProperties 0x6D).2.2.2 = some 231 ∧
    ∀ b : Nat, b ≠ 0x12 → b ≠ 0x3E → b ≠ 0x6D →
      determineTagProperties b = ("Unknown", (none, none), (none, none), none) := by
  refine ⟨rfl, rfl, rfl, rfl, rfl, ?_⟩
  intro b hb1 hb2 hb3
  simp [determineTagProperties, hb1, hb2, hb3]

/-- Witness for C5 at the concrete Capability Container byte `0x99`. -/
theorem subtype_derivation_witness :
    determineTagProperties 0x99 = ("Unknown", (none, none), (none, none), none) :=
  subtype_derivation.2.2.2.2.2 0x99 (by decide) (by decide) (by decide)

/-! ## Passive-target listing — src/pn532/pn532.py, `PN532.list_passive_target` -/

/-- Outcome of the `_call_function` exchange underneath
`list_passive_target`: `busy` models the transport raising `BusyError`
(caught by `list_passive_target`); `noResponse` models `_call_function`
returning `None` (write `OSError`, missing ACK, or not-ready timeout);
`response r` models a received response body. -/
inductive TransportOutcome where
  | busy
  | noResponse
  | response (r : List Nat)

/-- Embedding of `PN532.list_passive_target` (src/pn532/pn532.py lines
381-403) as a function of the exchange outcome.  `BusyError` and a `None`
response both return `None` (no card in field); otherwise the source checks
`response[0] != 0x01` and `response[5] > 7` (raising `RuntimeError` with the
quoted messages) and returns the UID slice `response[6:6 + response[5]]`.
A response too short for those subscripts faults with an `IndexError`. -/
def listPassiveTarget : TransportOutcome → Except String (Option (List Nat))
  | .busy => .ok none
  | .noResponse => .ok none
  | .response r =>
    match r.get? 0 with
    | none => .error "IndexError"
    | some t0 =>
      if t0 ≠ 0x01 then .error "More than one card detected!"
      else
        match r.get? 5 with
        | none => .error "IndexError"
        | some n =>
          if n > 7 then .error "Found card with unexpectedly long UID!"
          else .ok (some ((r.drop 6).take n))

/-- C6.  No-tag is not an error: a busy device and an empty-field exchange
(no response) both make `list_passive_target` return `None` without an
error, and this outcome is distinguishable from failure because a received
response never produces `ok none` — it yields a UID or an error. -/
theorem no_tag_not_error :
    listPassiveTarget .busy = .ok none ∧
    listPassiveTarget .noResponse = .ok none ∧
    ∀ (r : List Nat) (u : Option (List Nat)),
      listPassiveTarget (.response r) = .ok u → ∃ uid, u = some uid := by
  refine ⟨rfl, rfl, ?_⟩
  intro r u h
  simp only [listPassiveTarget] at h
  split at h
  · exact absurd h (by simp)
  · split at h
    · exact absurd h (by simp)
    · split at h
      · exact absurd h (by simp)
      · split at h
        · exact absurd h (by simp)
        · injection h with h2
          exact ⟨_, h2.symm⟩

/-- Witness for C6: the busy case at a concrete response, and a concrete
10-byte response with a 4-byte UID, which cannot be `ok none`. -/
theorem no_tag_not_error_witness :
    listPassiveTarget .busy = .ok none ∧
    ∃ uid, (some [9, 8, 7, 6] : Option (List Nat)) = some uid :=
  ⟨no_tag_not_error.1,
    no_tag_not_error.2.2 [1, 0, 0, 0, 0, 4, 9, 8, 7, 6] (some [9, 8, 7, 6]) rfl⟩

/-! ## Python strings, UTF-8, and big-endian byte conversion

A Python `str` is embedded as its list of Unicode code points: Python `len`
counts code points, slicing and `startswith` operate on code points, and
`str.encode()` produces the UTF-8 bytes. -/

/-- Code points of a Lean string literal; transcribes the Python string
literals of the source into the embedding. -/
def strLit (s : String) : List Nat := s.data.map Char.toNat

/-- UTF-8 bytes of one code point. -/
def utf8EncodeChar (c : Nat) : List Nat :=
  if c < 0x80 then [c]
  else if c < 0x800 then [0xC0 + c / 64, 0x80 + c % 64]
  else if c < 0x10000 then [0xE0 + c / 4096, 0x80 + c / 64 % 64, 0x80 + c % 64]
  else [0xF0 + c / 262144, 0x80 + c / 4096 % 64, 0x80 + c / 64 % 64, 0x80 + c % 64]

/-- Python `s.encode()`: the UTF-8 bytes of a code-point list. -/
def strEncode (s : List Nat) : List Nat := (s.map utf8EncodeChar).join

/-- Python `value.to_bytes(n, 'big')`. -/
def toBytesBE : Nat → Nat → List Nat
  | 0, _ => []
  | n + 1, value => toBytesBE n (value / 256) ++ [value % 256]

/-! ## NDEF record encoder — src/nfc/communication/ndef/base.py -/

/-- Embedding of `NDEF._create_message_flags` (src/nfc/communication/ndef/base.py
lines 24-36): MB and ME are always set, CF is always clear, SR is set when
the payload string is shorter than 256 code points, IL when an id is
present; the flags are OR-ed with the TNF. -/
def createMessageFlags (payload : List Nat) (id : List Nat) (tnf : Nat) : Nat :=
  let mb := 0x80
  let me := 0x40
  let cf := 0x00
  let sr := if payload.length < 256 then 0x10 else 0x00
  let il := if id ≠ [] then 0x08 else 0x00
  mb ||| me ||| cf ||| sr ||| il ||| tnf

/-- Modelled from the spec: `URI_PREFIX_MAP` is imported into
src/nfc/communication/ndef/base.py by `from .constants import *`, but that
`constants` module is absent from src.  The spec fixes the table as the
standard NFC Forum URI prefix assignment it references (codes `0x01`-`0x23`,
with `http://www.` mapping to 0x01 and `https://` to 0x04), matching the
`NDEF_URIPREFIX_*` constant names present in src/pn532/pn532.py.  The list
preserves the dict's insertion order. -/
def URI_PREFIX_MAP : List (List Nat × Nat) :=
  [(strLit "http://www.", 0x01), (strLit "https://www.", 0x02),
   (strLit "http://", 0x03), (strLit "https://", 0x04),
   (strLit "tel:", 0x05), (strLit "mailto:", 0x06),
   (strLit "ftp://anonymous:anonymous@", 0x07), (strLit "ftp://ftp.", 0x08),
   (strLit "ftps://", 0x09), (strLit "sftp://", 0x0A),
   (strLit "smb://", 0x0B), (strLit "nfs://", 0x0C),
   (strLit "ftp://", 0x0D), (strLit "dav://", 0x0E),
   (strLit "news:", 0x0F), (strLit "telnet://", 0x10),
   (strLit "imap:", 0x11), (strLit "rtsp://", 0x12),
   (strLit "urn:", 0x13), (strLit "pop:", 0x14),
   (strLit "sip:", 0x15), (strLit "sips:", 0x16),
   (strLit "tftp:", 0x17), (strLit "btspp://", 0x18),
   (strLit "btl2cap://", 0x19), (strLit "btgoep://", 0x1A),
   (strLit "tcpobex://", 0x1B), (strLit "irdaobex://", 0x1C),
   (strLit "file://", 0x1D), (strLit "urn:epc:id:", 0x1E),
   (strLit "urn:epc:tag:", 0x1F), (strLit "urn:epc:pat:", 0x20),
   (strLit "urn:epc:raw:", 0x21), (strLit "urn:epc:", 0x22),
   (strLit "urn:nfc:", 0x23)]

/-- One iteration of the prefix-search loop in `NDEF._prepare_payload`
(src/nfc/communication/ndef/base.py lines 38-66).  The accumulator is the
triple `(best_match_code, max_prefix_length, matched_prefix)`; an entry
replaces it when its prefix starts the payload and is strictly longer than
the best match so far. -/
def uriStep (payload : List Nat) (acc : Nat × Nat × List Nat)
    (entry : List Nat × Nat) : Nat × Nat × List Nat :=
  if entry.1 <+: payload ∧ acc.2.1 < entry.1.length then
    (entry.2, entry.1.length, entry.1)
  else acc

/-- Embedding of `NDEF._prepare_payload` (src/nfc/communication/ndef/base.py
lines 38-66).  For record type `'U'` the loop over `URI_PREFIX_MAP` finds
the best matching prefix starting from `(NDEF_URIPREFIX_NONE, 0, '')`, the
matched prefix is stripped, and the 1-byte code is prepended to the encoded
remainder; for any other record type the payload is just encoded. -/
def preparePayload (recordType : String) (payload : List Nat) : List Nat :=
  if recordType = "U" then
    let best := URI_PREFIX_MAP.foldl (uriStep payload) (0x00, 0, ([] : List Nat))
    best.1 :: strEncode (payload.drop best.2.2.length)
  else strEncode payload

/-- Embedding of `NDEF._create_record_header` (src/nfc/communication/ndef/base.py
lines 68-82): returns the header bytes together with the prepared payload.
The payload-length field is 1 byte when the prepared payload is shorter
than 256 bytes and 4 bytes otherwise; the id-length byte and id bytes are
present only when an id is given. -/
def createRecordHeader (tnf : Nat) (recordType : String) (payload : List Nat)
    (id : List Nat) : List Nat × List Nat :=
  let messageFlags := createMessageFlags payload id tnf
  let preparedPayload := preparePayload recordType payload
  let typeLength := toBytesBE 1 recordType.length
  let payloadLength :=
    toBytesBE (if preparedPayload.length < 256 then 1 else 4) preparedPayload.length
  let idLength := if id ≠ [] then toBytesBE 1 id.length else []
  ([messageFlags] ++ typeLength ++ payloadLength ++ idLength
      ++ strEncode (strLit recordType) ++ (if id ≠ [] then strEncode id else []),
   preparedPayload)

/-- Embedding of `NDEF._construct_complete_record` (src/nfc/communication/ndef/base.py
lines 84-97; src/ntag/NDEF.py lines 95-108 is byte-identical): the complete
record is header plus prepared payload, and the TLV length field is
`len(complete_record).to_bytes(1 if len(complete_record) < 255 else 2, 'big')` —
one byte below 255, otherwise the bare 2-byte big-endian length. -/
def constructCompleteRecord (tnf : Nat) (recordType : String) (payload : List Nat)
    (id : List Nat) : List Nat :=
  let hp := createRecordHeader tnf recordType payload id
  let completeRecord := hp.1 ++ hp.2
  let tlvLength := toBytesBE (if completeRecord.length < 255 then 1 else 2)
    completeRecord.length
  [0x03] ++ tlvLength ++ completeRecord ++ [0xFE]

set_option maxRecDepth 16384 in
/-- C3.  Evaluation of the TLV wrapping at a record set of total length 300
(tnf 0x01, type `'T'`, a 293-character ASCII payload, no id, so header 7
bytes plus payload 293 bytes): the code emits `0x03 0x01 0x2C <300 bytes>
0xFE` — the 2-byte big-endian length `0x01 0x2C` directly follows the tag
with no `0xFF` marker byte, and the whole message is 304 bytes, not the 305
the `0xFF`-marked form would give. -/
theorem tlv_long_record_missing_ff_marker :
    (constructCompleteRecord 0x01 "T" (List.replicate 293 65) []).take 4
      = [0x03, 0x01, 0x2C, 0xC1] ∧
    (constructCompleteRecord 0x01 "T" (List.replicate 293 65) []).length = 304 ∧
    ((createRecordHeader 0x01 "T" (List.replicate 293 65) []).1
      ++ (createRecordHeader 0x01 "T" (List.replicate 293 65) []).2).length = 300 := by
  refine ⟨?_, ?_, ?_⟩ <;> decide

/-- The prefix-search loop leaves the accumulator unchanged when no
remaining entry both matches the payload and is strictly longer than the
best match so far. -/
lemma uriFold_absorb (p : List Nat) (l : List (List Nat × Nat))
    (acc : Nat × Nat × List Nat)
    (h : ∀ e ∈ l, e.1 <+: p → e.1.length ≤ acc.2.1) :
    l.foldl (uriStep p) acc = acc := by
  induction l generalizing acc with
  | nil => rfl
  | cons a t ih =>
    have step : uriStep p acc a = acc := by
      unfold uriStep
      rw [if_neg]
      rintro ⟨hpre, hlen⟩
      exact absurd (h a (by simp) hpre) (by omega)
    rw [List.foldl_cons, step]
    exact ih _ (fun e he hpre => h e (by simp [he]) hpre)

/-- The prefix-search loop ends in the state of a longest matching entry
`e`, for any table whose entries with `e`'s prefix carry `e`'s code, as long
as the starting accumulator is strictly shorter than `e`'s prefix. -/
lemma uriFold_max (p : List Nat) (e : List Nat × Nat) :
    ∀ (l : List (List Nat × Nat)) (acc : Nat × Nat × List Nat),
    e ∈ l → e.1 <+: p →
    (∀ f ∈ l, f.1 <+: p → f.1.length ≤ e.1.length) →
    (∀ f ∈ l, f.1 = e.1 → f.2 = e.2) →
    acc.2.1 < e.1.length →
    l.foldl (uriStep p) acc = (e.2, e.1.length, e.1) := by
  intro l
  induction l with
  | nil => intro acc he; cases he
  | cons a t ih =>
    intro acc he hpre hmax hcode hacc
    by_cases hc : a.1 <+: p ∧ acc.2.1 < a.1.length
    · have hstep : uriStep p acc a = (a.2, a.1.length, a.1) := by
        unfold uriStep; rw [if_pos hc]
      rw [List.foldl_cons, hstep]
      have hale : a.1.length ≤ e.1.length := hmax a (by simp) hc.1
      by_cases heq : a.1.length = e.1.length
      · have haeq : a.1 = e.1 := by
          obtain ⟨t1, ht1⟩ := hc.1
          obtain ⟨t2, ht2⟩ := hpre
          exact (List.append_inj (ht1.trans ht2.symm) heq).1
        have hc2 : a.2 = e.2 := hcode a (by simp) haeq
        rw [uriFold_absorb p t _ ?_]
        · rw [hc2, heq, haeq]
        · intro f hf hfp
          have := hmax f (by simp [hf]) hfp
          simpa using by omega
      · have het : e ∈ t := by
          rcases List.mem_cons.mp he with h | h
          · exact absurd (by rw [h]) heq
          · exact h
        exact ih _ het hpre (fun f hf => hmax f (by simp [hf]))
          (fun f hf => hcode f (by simp [hf])) (by simpa using by omega)
    · have hstep : uriStep p acc a = acc := by unfold uriStep; rw [if_neg hc]
      rw [List.foldl_cons, hstep]
      have het : e ∈ t := by
        rcases List.mem_cons.mp he with h | h
        · exact absurd ⟨h ▸ hpre, h ▸ hacc⟩ hc
        · exact h
      exact ih _ het hpre (fun f hf => hmax f (by simp [hf]))
        (fun f hf => hcode f (by simp [hf])) hacc

/-- C4.  URI abbreviation: for record type `'U'`, when no table prefix
starts the payload the code byte is `0x00` and the payload is kept whole;
when some table entry's prefix starts the payload and is of maximal length
among the matches, that entry's code is prepended and its prefix stripped;
and concretely `"https://example.com"` encodes as code `0x04` followed by
the encoding of `"example.com"`. -/
theorem uri_abbreviation (p : List Nat) :
    ((∀ e ∈ URI_PREFIX_MAP, ¬ e.1 <+: p) →
      preparePayload "U" p = 0x00 :: strEncode p) ∧
    (∀ e ∈ URI_PREFIX_MAP, e.1 <+: p →
      (∀ f ∈ URI_PREFIX_MAP, f.1 <+: p → f.1.length ≤ e.1.length) →
      preparePayload "U" p = e.2 :: strEncode (p.drop e.1.length)) ∧
    preparePayload "U" (strLit "https://example.com")
      = 0x04 :: strEncode (strLit "example.com") := by
  refine ⟨?_, ?_, ?_⟩
  · intro h
    have habs := uriFold_absorb p URI_PREFIX_MAP (0x00, 0, ([] : List Nat))
      (fun e he hpre => absurd hpre (h e he))
    simp only [preparePayload, if_pos rfl, habs]
    simp
  · intro e he hpre hmax
    have hne : 0 < e.1.length := by
      have hall : ∀ f ∈ URI_PREFIX_MAP, 0 < f.1.length := by decide
      exact hall e he
    have hcode : ∀ f ∈ URI_PREFIX_MAP, f.1 = e.1 → f.2 = e.2 := by
      have huniq : ∀ f ∈ URI_PREFIX_MAP, ∀ g ∈ URI_PREFIX_MAP, f.1 = g.1 → f.2 = g.2 := by
        decide
      exact fun f hf hfe => huniq f hf e he hfe
    have hfold := uriFold_max p e URI_PREFIX_MAP (0x00, 0, ([] : List Nat))
      he hpre hmax hcode (by simpa using hne)
    simp only [preparePayload, if_pos rfl, hfold]
    simp
  · decide

/-- Witness for C4: the no-match branch at payload `"xyz"` (code `0x00`,
payload unmodified), and the concrete `https` example. -/
theorem uri_abbreviation_witness :
    preparePayload "U" (strLit "xyz") = 0x00 :: strEncode (strLit "xyz") ∧
    preparePayload "U" (strLit "https://example.com")
      = 0x04 :: strEncode (strLit "example.com") :=
  ⟨(uri_abbreviation (strLit "xyz")).1 (by decide),
   (uri_abbreviation (strLit "https://example.com")).2.2⟩

/-! ## NDEF record creation — src/pn532/pn532.py, `PN532.create_ndef_record` -/

/-- Embedding of `PN532.create_ndef_record` (src/pn532/pn532.py lines
465-519).  `payload` and `id` are Python strs embedded as code-point lists;
`recordType` and `recordPosition` are compared against the source's string
literals.  MB is set for positions `'only'` and `'first'`, ME for `'only'`
and `'last'`, CF for `'middle'`; SR when the payload is shorter than 256
code points; IL when an id is present.  The payload-length field is 1 byte
when SR is set and 4 bytes otherwise, the id-length byte appears only when
IL is set, and the record terminator `0xFE` is appended to the complete
record.  The source's `print` calls are side effects outside the embedding. -/
def createNdefRecord (tnf : Nat) (recordType : String) (payload : List Nat)
    (recordPosition : String) (id : List Nat) : List Nat :=
  let mb := if recordPosition = "only" ∨ recordPosition = "first" then 0x80 else 0x00
  let me := if recordPosition = "only" ∨ recordPosition = "last" then 0x40 else 0x00
  let cf := if recordPosition = "middle" then 0x20 else 0x00
  let sr := if payload.length < 256 then 0x10 else 0x00
  let il := if id ≠ [] then 0x08 else 0x00
  let messageFlags := mb ||| me ||| cf ||| sr ||| il ||| tnf
  let typeLength := toBytesBE 1 recordType.length
  let payloadLength :=
    if sr ≠ 0 then toBytesBE 1 payload.length else toBytesBE 4 payload.length
  let idLength := if il ≠ 0 then toBytesBE 1 id.length else []
  let recordTypeBytes := strEncode (strLit recordType)
  let idBytes := strEncode id
  let header := [messageFlags] ++ typeLength ++ payloadLength ++ idLength
      ++ recordTypeBytes ++ idBytes
  let completeRecord := header ++ strEncode payload
  completeRecord ++ [0xFE]

/-- C10.  `create_ndef_record` appends the terminator byte `0xFE` to every
record it returns: for every TNF byte, record type, payload, record
position (including `'first'` and `'middle'`) and id, the last byte of the
returned record is `0xFE` — the terminator is attached per record, not once
per TLV-wrapped message. -/
theorem record_terminator_always_appended (tnf : Nat) (recordType : String)
    (payload : List Nat) (recordPosition : String) (id : List Nat)
    (htnf : tnf ≤ 0xFF) :
    (createNdefRecord tnf recordType payload recordPosition id).getLast?
      = some 0xFE := by
  simp only [createNdefRecord]
  exact List.getLast?_concat _

/-- Witness for C10 at concrete records, one with position `'first'` and no
id, one with position `'middle'` and an id. -/
theorem record_terminator_always_appended_witness :
    (createNdefRecord 0x01 "T" (strLit "hello") "first" []).getLast? = some 0xFE ∧
    (createNdefRecord 0x01 "U" (strLit "x") "middle" (strLit "id1")).getLast?
      = some 0xFE :=
  ⟨record_terminator_always_appended 0x01 "T" (strLit "hello") "first" [] (by decide),
   record_terminator_always_appended 0x01 "U" (strLit "x") "middle" (strLit "id1")
     (by decide)⟩

/-! ## NDEF message writing — src/pn532/pn532.py, `PN532.write_ndef_message` -/

/-- The chunking loop of `PN532.write_ndef_message`
(`for i in range(0, len(ndef_message), 4): block_data = ndef_message[i:i+4]`,
zero-padding a short final slice to 4 bytes).  The slice-by-slice loop is
embedded as structural recursion consuming four bytes at a time. -/
def chunkPages : List Nat → List (List Nat)
  | [] => []
  | [a] => [[a, 0x00, 0x00, 0x00]]
  | [a, b] => [[a, b, 0x00, 0x00]]
  | [a, b, c] => [[a, b, c, 0x00]]
  | a :: b :: c :: d :: rest => [a, b, c, d] :: chunkPages rest

/-- The page-write loop of `PN532.write_ndef_message`: `dev b c` is the
outcome of `ntag2xx_write_block(b, c)`, with `false` modelling a raised
exception.  The result pairs the Python return value (`True` on completion
of the loop, `False` when the `except` handler is reached) with the list of
page writes actually performed, in order — the explicit effect log of the
shallow embedding. -/
def writeLoop (dev : Nat → List Nat → Bool) :
    List (List Nat) → Nat → Bool × List (Nat × List Nat)
  | [], _ => (true, [])
  | c :: cs, b =>
    if dev b c then
      ((writeLoop dev cs (b + 1)).1, (b, c) :: (writeLoop dev cs (b + 1)).2)
    else (false, [])

/-- Embedding of `PN532.write_ndef_message` (src/pn532/pn532.py lines
538-563): chunk the message into padded 4-byte blocks and write them to
consecutive blocks starting at `start_block`; the first failing write
aborts the loop (its exception reaches the `except` handler, which returns
`False`). -/
def writeNdefMessage (dev : Nat → List Nat → Bool) (ndefMessage : List Nat)
    (startBlock : Nat) : Bool × List (Nat × List Nat) :=
  writeLoop dev (chunkPages ndefMessage) startBlock

/-- If every write before index `k` succeeds and the write of chunk `k`
fails, the loop returns `False` having performed exactly the writes of the
chunks before `k`. -/
lemma writeLoop_fail (dev : Nat → List Nat → Bool) :
    ∀ (cs : List (List Nat)) (b k : Nat) (hk : k < cs.length),
    (∀ j, (hj : j < k) → dev (b + j) (cs.get ⟨j, hj.trans hk⟩) = true) →
    dev (b + k) (cs.get ⟨k, hk⟩) = false →
    writeLoop dev cs b = (false, (List.range' b k).zip (cs.take k)) := by
  intro cs
  induction cs with
  | nil => intro b k hk; simp at hk
  | cons c cs ih =>
    intro b k hk hok hfail
    cases k with
    | zero =>
      have h0 : dev b c = false := by simpa using hfail
      simp [writeLoop, h0]
    | succ n =>
      have h0 : dev b c = true := by simpa using hok 0 (Nat.succ_pos n)
      have hok2 : ∀ j, (hj : j < n) →
          dev (b + 1 + j) (cs.get ⟨j, hj.trans (Nat.lt_of_succ_lt_succ hk)⟩) = true := by
        intro j hj
        have h := hok (j + 1) (Nat.succ_lt_succ hj)
        have e : b + (j + 1) = b + 1 + j := by omega
        rw [e] at h
        simpa using h
      have hfail2 : dev (b + 1 + n)
          (cs.get ⟨n, Nat.lt_of_succ_lt_succ hk⟩) = false := by
        have e : b + (n + 1) = b + 1 + n := by omega
        rw [e] at hfail
        simpa using hfail
      have ihres := ih (b + 1) n (Nat.lt_of_succ_lt_succ hk) hok2 hfail2
      simp [writeLoop, h0, ihres, List.range']

/-- C7.  Write-failure surfacing: for every message, device behaviour and
start block, if the underlying page write fails at chunk index `k` (all
earlier writes succeeding), `write_ndef_message` returns the failure value
`False` and the performed writes are exactly the chunks before `k` at
blocks `start_block .. start_block + k - 1`: the remaining writes are
aborted and the earlier ones are not rolled back. -/
theorem write_failure_surfaced (dev : Nat → List Nat → Bool) (msg : List Nat)
    (start k : Nat) (hk : k < (chunkPages msg).length)
    (hok : ∀ j, (hj : j < k) →
      dev (start + j) ((chunkPages msg).get ⟨j, hj.trans hk⟩) = true)
    (hfail : dev (start + k) ((chunkPages msg).get ⟨k, hk⟩) = false) :
    writeNdefMessage dev msg start
      = (false, (List.range' start k).zip ((chunkPages msg).take k)) :=
  writeLoop_fail dev (chunkPages msg) start k hk hok hfail

/-- Witness for C7: a 10-byte message written from block 5 on a device that
fails at block 6 yields `False` with exactly the one write of block 5
performed. -/
theorem write_failure_surfaced_witness :
    writeNdefMessage (fun b _ => b != 6) [1, 2, 3, 4, 5, 6, 7, 8, 9, 10] 5
      = (false, [(5, [1, 2, 3, 4])]) := by
  have h := write_failure_surfaced (fun b _ => b != 6) [1, 2, 3, 4, 5, 6, 7, 8, 9, 10]
    5 1 (by decide) ?_ ?_
  · simpa using h
  · intro j hj
    match j, hj with
    | 0, _ => rfl
  · rfl

end EdgeDevice
